import Mathlib

/-!
Shallow embedding of the runecast-state session/presence core:
the connection continuity manager (`src/state/connection.rs`) and the
player location state machine (`src/state/player.rs`).

Time is modelled by an explicit `now : Nat` parameter replacing every
`Instant::now()` read (the source uses a monotonic clock, so the theorems
that need it take a clock-monotonicity hypothesis `t ≤ now`).  `u64`
counters are modelled as `Nat`: Rust's declared semantics make `+= 1`
overflow a program error, not wrap-around, so no `% 2^64` is inserted.
The opaque `serde_json::Value` payload is modelled as `String`.
`HashMap` is modelled as an association list with distinct keys;
`mapInsert`/`mapErase`/`mapFind` mirror `HashMap::insert/remove/get`.
-/

namespace Runecast

/-- Default grace period for reconnection (60 seconds), in seconds. -/
def DEFAULT_RECONNECT_GRACE_PERIOD : Nat := 60

/-- Default heartbeat interval (30 seconds), in seconds. -/
def DEFAULT_HEARTBEAT_INTERVAL : Nat := 30

/-- Default heartbeat timeout (45 seconds), in seconds. -/
def DEFAULT_HEARTBEAT_TIMEOUT : Nat := 45

/-- Rust `ConnectionStatus` from `connection.rs`. -/
inductive ConnectionStatus where
  | connected
  | disconnected (since : Nat) (grace_until : Nat)
  | expired
  deriving DecidableEq

/-- Rust `ConnectionStatus::is_connected`. -/
def ConnectionStatus.is_connected : ConnectionStatus → Bool
  | ConnectionStatus.connected => true
  | _ => false

/-- Rust `ConnectionStatus::is_reconnectable`; `now` replaces `Instant::now()`. -/
def ConnectionStatus.is_reconnectable (s : ConnectionStatus) (now : Nat) : Bool :=
  match s with
  | ConnectionStatus.disconnected _ grace_until => decide (now < grace_until)
  | _ => false

/-- Rust `ConnectionStatus::is_expired`; `now` replaces `Instant::now()`. -/
def ConnectionStatus.is_expired (s : ConnectionStatus) (now : Nat) : Bool :=
  match s with
  | ConnectionStatus.expired => true
  | ConnectionStatus.disconnected _ grace_until => decide (grace_until ≤ now)
  | _ => false

/-- Rust `PendingMessage` from `connection.rs`; the JSON payload is opaque. -/
structure PendingMessage where
  seq : Nat
  message : String
  sent_at : Nat
  deriving DecidableEq

/-- Rust `Connection` from `connection.rs`. -/
structure Connection where
  player_id : Int
  user_id : String
  username : String
  avatar_url : Option String
  status : ConnectionStatus
  connected_at : Nat
  last_activity : Nat
  last_heartbeat : Nat
  send_seq : Nat
  ack_seq : Nat
  pending_messages : List PendingMessage
  session_token : String
  uses_envelope : Bool
  deriving DecidableEq

/-- Rust `Connection::new`; `now` replaces the single `Instant::now()` read. -/
def Connection.new (player_id : Int) (user_id : String) (username : String)
    (avatar_url : Option String) (session_token : String) (now : Nat) : Connection :=
  { player_id := player_id
    user_id := user_id
    username := username
    avatar_url := avatar_url
    status := ConnectionStatus.connected
    connected_at := now
    last_activity := now
    last_heartbeat := now
    send_seq := 0
    ack_seq := 0
    pending_messages := []
    session_token := session_token
    uses_envelope := false }

/-- Rust `Connection::disconnect_with_grace`. -/
def Connection.disconnect_with_grace (c : Connection) (grace_period : Nat) (now : Nat) :
    Connection :=
  { c with status := ConnectionStatus.disconnected now (now + grace_period) }

/-- Rust `Connection::disconnect` (default grace period). -/
def Connection.disconnect (c : Connection) (now : Nat) : Connection :=
  c.disconnect_with_grace DEFAULT_RECONNECT_GRACE_PERIOD now

/-- Rust `Connection::reconnect`: returns the `Result` together with the
post-state (the Rust method mutates `self`). -/
def Connection.reconnect (c : Connection) (now : Nat) :
    Except String (List PendingMessage) × Connection :=
  match c.status with
  | ConnectionStatus.connected =>
      (Except.ok [], { c with last_activity := now })
  | ConnectionStatus.disconnected _ grace_until =>
      if now < grace_until then
        (Except.ok c.pending_messages,
         { c with status := ConnectionStatus.connected,
                  last_activity := now, last_heartbeat := now })
      else
        (Except.error "Grace period expired", c)
  | ConnectionStatus.expired => (Except.error "Connection expired", c)

/-- Rust `Connection::expire`. -/
def Connection.expire (c : Connection) : Connection :=
  { c with status := ConnectionStatus.expired, pending_messages := [] }

/-- Rust `Connection::touch`. -/
def Connection.touch (c : Connection) (now : Nat) : Connection :=
  { c with last_activity := now }

/-- Rust `Connection::heartbeat`. -/
def Connection.heartbeat (c : Connection) (now : Nat) : Connection :=
  { c with last_heartbeat := now, last_activity := now }

/-- Rust `Connection::acknowledge`: sets `ack_seq` (plain assignment, as in the
source) and retains only messages with `seq > ack`. -/
def Connection.acknowledge (c : Connection) (ack : Nat) : Connection :=
  { c with ack_seq := ack,
           pending_messages := c.pending_messages.filter (fun m => decide (ack < m.seq)) }

/-- Rust `Connection::send`: increments `send_seq`, records the pending message,
returns the new sequence number together with the post-state. -/
def Connection.send (c : Connection) (message : String) (now : Nat) : Nat × Connection :=
  let seq := c.send_seq + 1
  (seq,
   { c with send_seq := seq,
            pending_messages :=
              c.pending_messages ++ [{ seq := seq, message := message, sent_at := now }] })

/-- Rust `Connection::is_heartbeat_timeout`. -/
def Connection.is_heartbeat_timeout (c : Connection) (now : Nat) : Bool :=
  c.status.is_connected && decide (DEFAULT_HEARTBEAT_TIMEOUT < now - c.last_heartbeat)

/-- Rust `Connection::messages_since`. -/
def Connection.messages_since (c : Connection) (seq : Nat) : List PendingMessage :=
  c.pending_messages.filter (fun m => decide (seq < m.seq))

/-- Association-list model of `HashMap::get`. -/
def mapFind {κ β : Type} [DecidableEq κ] : List (κ × β) → κ → Option β
  | [], _ => none
  | (k2, v) :: rest, k => if k2 = k then some v else mapFind rest k

/-- Association-list model of `HashMap::remove` (drops every entry with the key). -/
def mapErase {κ β : Type} [DecidableEq κ] (l : List (κ × β)) (k : κ) : List (κ × β) :=
  l.filter (fun p => decide (p.1 ≠ k))

/-- Association-list model of `HashMap::insert` (replaces any entry with the key). -/
def mapInsert {κ β : Type} [DecidableEq κ] (l : List (κ × β)) (k : κ) (v : β) :
    List (κ × β) :=
  (k, v) :: mapErase l k

/-- Rust `ConnectionManager` from `connection.rs`: connections keyed by player id,
plus the session-token secondary index. -/
structure ConnectionManager where
  connections : List (Int × Connection)
  sessions : List (String × Int)
  deriving DecidableEq

/-- Rust `ConnectionManager::new` (empty maps). -/
def ConnectionManager.new : ConnectionManager :=
  { connections := [], sessions := [] }

/-- Rust `ConnectionManager::add`. -/
def ConnectionManager.add (m : ConnectionManager) (conn : Connection) : ConnectionManager :=
  { connections := mapInsert m.connections conn.player_id conn
    sessions := mapInsert m.sessions conn.session_token conn.player_id }

/-- Rust `ConnectionManager::get`. -/
def ConnectionManager.get (m : ConnectionManager) (player_id : Int) : Option Connection :=
  mapFind m.connections player_id

/-- Rust `ConnectionManager::get_by_session`. -/
def ConnectionManager.get_by_session (m : ConnectionManager) (token : String) :
    Option Connection :=
  match mapFind m.sessions token with
  | some pid => mapFind m.connections pid
  | none => none

/-- Rust `ConnectionManager::remove`: returns the removed connection (if any)
together with the post-state. -/
def ConnectionManager.remove (m : ConnectionManager) (player_id : Int) :
    Option Connection × ConnectionManager :=
  match mapFind m.connections player_id with
  | some conn =>
      (some conn,
       { connections := mapErase m.connections player_id
         sessions := mapErase m.sessions conn.session_token })
  | none => (none, m)

/-- Rust `ConnectionManager::disconnect`: note the source's `if let Some` —
an unknown player id is silently ignored and nothing is reported. -/
def ConnectionManager.disconnect (m : ConnectionManager) (player_id : Int) (now : Nat) :
    ConnectionManager :=
  match mapFind m.connections player_id with
  | some conn =>
      { m with connections := mapInsert m.connections player_id (conn.disconnect now) }
  | none => m

/-- The per-entry removal step of `expire_stale`'s second loop
(`connections.remove(pid)` then `sessions.remove(&conn.session_token)`). -/
def removeStep (st : List (Int × Connection) × List (String × Int)) (pid : Int) :
    List (Int × Connection) × List (String × Int) :=
  match mapFind st.1 pid with
  | some conn => (mapErase st.1 pid, mapErase st.2 conn.session_token)
  | none => st

/-- The condition of `expire_stale`'s first loop:
`conn.status.is_expired() || conn.is_heartbeat_timeout()`. -/
def staleCond (now : Nat) (p : Int × Connection) : Bool :=
  p.2.status.is_expired now || p.2.is_heartbeat_timeout now

/-- The mutation of `expire_stale`'s first loop: `conn.expire()` on every
entry matching the condition. -/
def staleMut (now : Nat) (p : Int × Connection) : Int × Connection :=
  if staleCond now p then (p.1, p.2.expire) else p

/-- Rust `ConnectionManager::expire_stale`.  The single Rust pass that both
collects matching player ids and calls `expire()` on them is split into the
collection (`filter` then `map Prod.fst`) and the mutation (`map staleMut`);
each entry is visited exactly once and the condition only reads the entry
itself, so the two are equivalent.  Then the collected ids are removed from
both indexes. -/
def ConnectionManager.expire_stale (m : ConnectionManager) (now : Nat) :
    List Int × ConnectionManager :=
  let expired := (m.connections.filter (staleCond now)).map Prod.fst
  let final := expired.foldl removeStep (m.connections.map (staleMut now), m.sessions)
  (expired, { connections := final.1, sessions := final.2 })

/-- Rust `PlayerLocation` from `player.rs`. -/
inductive PlayerLocation where
  | disconnected
  | connected
  | inLobby (lobby_id : String)
  | inGame (lobby_id : String) (game_id : String)
  | spectating (lobby_id : String) (game_id : String)
  deriving DecidableEq

/-- Rust `PlayerEvent` from `player.rs`. -/
inductive PlayerEvent where
  | connect
  | disconnect
  | joinLobby (lobby_id : String)
  | leaveLobby
  | startGame (game_id : String)
  | joinGame (game_id : String)
  | spectateGame (game_id : String)
  | leaveGame
  | becomePlayer
  | becomeSpectator
  deriving DecidableEq

/-- Rust `InvalidTransition` from `player.rs` (`from` is a Lean keyword, hence
`from_loc`). -/
structure InvalidTransition where
  from_loc : PlayerLocation
  event : PlayerEvent
  reason : String
  deriving DecidableEq

/-- Rust `PlayerState` from `player.rs`. -/
structure PlayerState where
  location : PlayerLocation
  deriving DecidableEq

/-- Rust `PlayerState::new`. -/
def PlayerState.new : PlayerState :=
  { location := PlayerLocation.disconnected }

/-- Rust `PlayerState::at` (`at` is a Lean keyword, hence `atLoc`). -/
def PlayerState.atLoc (location : PlayerLocation) : PlayerState :=
  { location := location }

/-- Rust `PlayerState::transition`, arm for arm in source order (Rust `match`
arms apply top-down, as does the Lean `match`). -/
def PlayerState.transition (s : PlayerState) (event : PlayerEvent) :
    Except InvalidTransition PlayerLocation :=
  let invalid := fun (reason : String) =>
    Except.error { from_loc := s.location, event := event, reason := reason }
  match s.location, event with
  | PlayerLocation.disconnected, PlayerEvent.connect => Except.ok PlayerLocation.connected
  | _, PlayerEvent.connect => invalid "Already connected"
  | PlayerLocation.disconnected, PlayerEvent.disconnect => invalid "Already disconnected"
  | _, PlayerEvent.disconnect => Except.ok PlayerLocation.disconnected
  | PlayerLocation.connected, PlayerEvent.joinLobby lobby_id =>
      Except.ok (PlayerLocation.inLobby lobby_id)
  | PlayerLocation.inLobby _, PlayerEvent.joinLobby _ => invalid "Already in a lobby"
  | PlayerLocation.inGame _ _, PlayerEvent.joinLobby _ => invalid "Must leave game first"
  | PlayerLocation.spectating _ _, PlayerEvent.joinLobby _ => invalid "Must leave game first"
  | PlayerLocation.disconnected, PlayerEvent.joinLobby _ => invalid "Must connect first"
  | PlayerLocation.inLobby _, PlayerEvent.leaveLobby => Except.ok PlayerLocation.connected
  | PlayerLocation.inGame _ _, PlayerEvent.leaveLobby => invalid "Must leave game first"
  | PlayerLocation.spectating _ _, PlayerEvent.leaveLobby => invalid "Must leave game first"
  | _, PlayerEvent.leaveLobby => invalid "Not in a lobby"
  | PlayerLocation.inLobby lobby_id, PlayerEvent.startGame game_id =>
      Except.ok (PlayerLocation.inGame lobby_id game_id)
  | PlayerLocation.inGame _ _, PlayerEvent.startGame _ => invalid "Already in a game"
  | _, PlayerEvent.startGame _ => invalid "Must be in a lobby to start a game"
  | PlayerLocation.inLobby lobby_id, PlayerEvent.joinGame game_id =>
      Except.ok (PlayerLocation.inGame lobby_id game_id)
  | PlayerLocation.spectating lobby_id _, PlayerEvent.joinGame game_id =>
      Except.ok (PlayerLocation.inGame lobby_id game_id)
  | PlayerLocation.inGame _ _, PlayerEvent.joinGame _ => invalid "Already playing"
  | _, PlayerEvent.joinGame _ => invalid "Must be in lobby or spectating"
  | PlayerLocation.inLobby lobby_id, PlayerEvent.spectateGame game_id =>
      Except.ok (PlayerLocation.spectating lobby_id game_id)
  | PlayerLocation.connected, PlayerEvent.spectateGame game_id =>
      Except.ok (PlayerLocation.spectating ("spectate-" ++ game_id) game_id)
  | PlayerLocation.inGame _ _, PlayerEvent.spectateGame _ => invalid "Already in a game"
  | PlayerLocation.spectating _ _, PlayerEvent.spectateGame _ => invalid "Already spectating"
  | PlayerLocation.disconnected, PlayerEvent.spectateGame _ => invalid "Must connect first"
  | PlayerLocation.inGame lobby_id _, PlayerEvent.leaveGame =>
      Except.ok (PlayerLocation.inLobby lobby_id)
  | PlayerLocation.spectating lobby_id _, PlayerEvent.leaveGame =>
      Except.ok (PlayerLocation.inLobby lobby_id)
  | _, PlayerEvent.leaveGame => invalid "Not in a game"
  | PlayerLocation.spectating lobby_id game_id, PlayerEvent.becomePlayer =>
      Except.ok (PlayerLocation.inGame lobby_id game_id)
  | PlayerLocation.inGame _ _, PlayerEvent.becomePlayer => invalid "Already a player"
  | _, PlayerEvent.becomePlayer => invalid "Must be spectating"
  | PlayerLocation.inGame lobby_id game_id, PlayerEvent.becomeSpectator =>
      Except.ok (PlayerLocation.spectating lobby_id game_id)
  | PlayerLocation.spectating _ _, PlayerEvent.becomeSpectator => invalid "Already spectating"
  | _, PlayerEvent.becomeSpectator => invalid "Must be in a game"

/-- Rust `PlayerState::apply`. -/
def PlayerState.apply (s : PlayerState) (event : PlayerEvent) :
    Except InvalidTransition PlayerState :=
  match s.transition event with
  | Except.ok new_location => Except.ok { location := new_location }
  | Except.error e => Except.error e

/-- Rust `PlayerState::apply_mut`: the `Result` together with the post-state
(the `?` in `self.location = self.transition(&event)?` returns before the
assignment, so the error path leaves `location` untouched). -/
def PlayerState.apply_mut (s : PlayerState) (event : PlayerEvent) :
    Except InvalidTransition Unit × PlayerState :=
  match s.transition event with
  | Except.ok new_location => (Except.ok (), { location := new_location })
  | Except.error e => (Except.error e, s)

/-- The fixed set of rejection reason strings appearing in
`PlayerState::transition`. -/
def transitionReasons : List String :=
  ["Already connected", "Already disconnected", "Already in a lobby",
   "Must leave game first", "Must connect first", "Not in a lobby",
   "Already in a game", "Must be in a lobby to start a game", "Already playing",
   "Must be in lobby or spectating", "Already spectating", "Not in a game",
   "Already a player", "Must be spectating", "Must be in a game"]

/-- One `Connection` operation, for quantifying over operation sequences.
Each carries the `now` at which it happens where the source reads the clock. -/
inductive ConnOp where
  | send (message : String) (now : Nat)
  | acknowledge (ack : Nat)
  | reconnect (now : Nat)
  | heartbeat (now : Nat)
  | touch (now : Nat)
  | disconnect_with_grace (grace_period : Nat) (now : Nat)
  | expire
  deriving DecidableEq

/-- Apply one operation to a connection (discarding returned values). -/
def Connection.applyOp (c : Connection) : ConnOp → Connection
  | ConnOp.send message now => (c.send message now).2
  | ConnOp.acknowledge ack => c.acknowledge ack
  | ConnOp.reconnect now => (c.reconnect now).2
  | ConnOp.heartbeat now => c.heartbeat now
  | ConnOp.touch now => c.touch now
  | ConnOp.disconnect_with_grace grace_period now => c.disconnect_with_grace grace_period now
  | ConnOp.expire => c.expire

/-- Apply a sequence of operations left to right. -/
def Connection.applyOps (c : Connection) : List ConnOp → Connection
  | [] => c
  | op :: rest => (c.applyOp op).applyOps rest

/-- The sequence numbers returned by the `send` calls in a run, in order. -/
def sendResults (c : Connection) : List ConnOp → List Nat
  | [] => []
  | ConnOp.send message now :: rest =>
      (c.send message now).1 :: sendResults (c.applyOp (ConnOp.send message now)) rest
  | op :: rest => sendResults (c.applyOp op) rest

/-- Number of `send` operations in a sequence. -/
def countSends : List ConnOp → Nat
  | [] => 0
  | ConnOp.send _ _ :: rest => countSends rest + 1
  | _ :: rest => countSends rest

/-- The connection-level data invariant of the spec: the replay buffer is
sorted strictly ascending by `seq`, every pending `seq` lies in
`(ack_seq, send_seq]`, and `ack_seq ≤ send_seq`. -/
def ConnInvariant (c : Connection) : Prop :=
  c.pending_messages.Pairwise (fun a b => a.seq < b.seq) ∧
  (∀ m ∈ c.pending_messages, c.ack_seq < m.seq ∧ m.seq ≤ c.send_seq) ∧
  c.ack_seq ≤ c.send_seq

/-- An operation is in-range if an `acknowledge` never references a sequence
number beyond what has been minted by `send`. -/
def validAckOp (c : Connection) : ConnOp → Prop
  | ConnOp.acknowledge ack => ack ≤ c.send_seq
  | _ => True

/-- Every `acknowledge` in the run is in-range at the state it is applied to. -/
def ValidOps : Connection → List ConnOp → Prop
  | _, [] => True
  | c, op :: rest => validAckOp c op ∧ ValidOps (c.applyOp op) rest

/-- One `ConnectionManager` operation. -/
inductive MgrOp where
  | add (conn : Connection)
  | remove (player_id : Int)
  | expire_stale (now : Nat)
  deriving DecidableEq

/-- Apply one registry operation (discarding returned values). -/
def ConnectionManager.applyMgrOp (m : ConnectionManager) : MgrOp → ConnectionManager
  | MgrOp.add conn => m.add conn
  | MgrOp.remove player_id => (m.remove player_id).2
  | MgrOp.expire_stale now => (m.expire_stale now).2

/-- Apply a sequence of registry operations left to right. -/
def ConnectionManager.applyMgrOps (m : ConnectionManager) : List MgrOp → ConnectionManager
  | [] => m
  | op :: rest => (m.applyMgrOp op).applyMgrOps rest

/-- An `add` is fresh if neither its player id nor its session token is
already indexed. -/
def validAddOp (m : ConnectionManager) : MgrOp → Prop
  | MgrOp.add conn =>
      mapFind m.connections conn.player_id = none ∧
      mapFind m.sessions conn.session_token = none
  | _ => True

/-- Every `add` in the run is fresh at the state it is applied to. -/
def ValidMgrOps : ConnectionManager → List MgrOp → Prop
  | _, [] => True
  | m, op :: rest => validAddOp m op ∧ ValidMgrOps (m.applyMgrOp op) rest

/-- Index consistency on the raw index pair: a token maps to a player id in
the session index exactly when that player's stored connection carries it. -/
def PairConsistent (conns : List (Int × Connection)) (sess : List (String × Int)) : Prop :=
  ∀ tok pid, mapFind sess tok = some pid ↔
    ∃ c, mapFind conns pid = some c ∧ c.session_token = tok

/-- Index consistency of a `ConnectionManager`. -/
def Consistent (m : ConnectionManager) : Prop :=
  PairConsistent m.connections m.sessions

/-- Concrete connection after three sends (witness data). -/
def connC3base : Connection :=
  ((((Connection.new 1 "10" "alice" none "tok1" 0).send "m1" 0).2.send "m2" 0).2.send "m3" 0).2

/-- Three sends, then a disconnect at time 1 with the default 60s grace
(witness data). -/
def connC3 : Connection := connC3base.disconnect_with_grace 60 1

/-- Registry with one already-expired connection and one live one
(witness data). -/
def mgrC6 : ConnectionManager :=
  (ConnectionManager.new.add ((Connection.new 1 "10" "alice" none "tok1" 0).expire)).add
    (Connection.new 2 "20" "bob" none "tok2" 0)

/-- Registry after re-adding player 1 with a different session token
(counterexample data). -/
def mgrC7 : ConnectionManager :=
  ConnectionManager.new.applyMgrOps
    [MgrOp.add (Connection.new 1 "10" "alice" none "t1" 0),
     MgrOp.add (Connection.new 1 "10" "alice" none "t2" 0)]

/-- Fresh connection used by witnesses. -/
def connW : Connection := Connection.new 1 "10" "alice" none "tokW" 0

/-- Operation sequence used by the C5 witness: three sends and an
acknowledgment of the second. -/
def opsW : List ConnOp :=
  [ConnOp.send "m1" 0, ConnOp.send "m2" 0, ConnOp.send "m3" 0, ConnOp.acknowledge 2]

theorem reconnect_connected {c : Connection} {now : Nat}
    (h : c.status = ConnectionStatus.connected) :
    c.reconnect now = (Except.ok [], { c with last_activity := now }) := by
  unfold Connection.reconnect
  rw [h]

theorem reconnect_disconnected_in_grace {c : Connection} {now s g : Nat}
    (h : c.status = ConnectionStatus.disconnected s g) (hlt : now < g) :
    c.reconnect now = (Except.ok c.pending_messages,
      { c with status := ConnectionStatus.connected,
               last_activity := now, last_heartbeat := now }) := by
  unfold Connection.reconnect
  rw [h]
  simp [hlt]

theorem reconnect_disconnected_late {c : Connection} {now s g : Nat}
    (h : c.status = ConnectionStatus.disconnected s g) (hge : g ≤ now) :
    c.reconnect now = (Except.error "Grace period expired", c) := by
  have hnot : ¬ now < g := Nat.not_lt.mpr hge
  unfold Connection.reconnect
  rw [h]
  simp [hnot]

theorem reconnect_expired {c : Connection} {now : Nat}
    (h : c.status = ConnectionStatus.expired) :
    c.reconnect now = (Except.error "Connection expired", c) := by
  unfold Connection.reconnect
  rw [h]

/-- Claim C1, as stated, is false: from `Spectating{l, g1}`, a `JoinGame`
event carrying game id `g2 ≠ g1` yields `InGame{l, g2}` — the game id comes
from the event, not from the spectating state. -/
theorem C1_counterexample :
    (PlayerState.atLoc (PlayerLocation.spectating "l" "g1")).transition
        (PlayerEvent.joinGame "g2")
      = Except.ok (PlayerLocation.inGame "l" "g2") ∧
    (PlayerState.atLoc (PlayerLocation.spectating "l" "g1")).transition
        (PlayerEvent.joinGame "g2")
      ≠ Except.ok (PlayerLocation.inGame "l" "g1") := by
  refine ⟨rfl, fun hcontra => absurd (Except.ok.inj hcontra) (by decide)⟩

/-- Claim C1 (amended): from `Spectating{l, g}`, `JoinGame{g2}` succeeds and
yields `InGame` with the same `lobby_id` and the game id carried by the
event, and `BecomePlayer` succeeds and yields `InGame` with the same
`lobby_id` and the same `game_id` as the spectating state. -/
theorem C1_spectating_to_ingame (l g g2 : String) :
    (PlayerState.atLoc (PlayerLocation.spectating l g)).transition (PlayerEvent.joinGame g2)
      = Except.ok (PlayerLocation.inGame l g2) ∧
    (PlayerState.atLoc (PlayerLocation.spectating l g)).transition PlayerEvent.becomePlayer
      = Except.ok (PlayerLocation.inGame l g) :=
  ⟨rfl, rfl⟩

/-- Claim C2: the code does not clamp — after `acknowledge(5)` then
`acknowledge(2)` on a fresh connection, the retained `ack_seq` is 2, which
is strictly below the earlier ack 5, contradicting
`ack_seq = max(ack_seq, incoming)`. -/
theorem C2_ack_not_clamped :
    (((Connection.new 1 "10" "alice" none "tok" 0).acknowledge 5).acknowledge 2).ack_seq = 2 ∧
    (2 : Nat) < 5 :=
  ⟨rfl, by decide⟩

/-- Claim C3: `reconnect`'s three-case contract.  If `Connected`, it succeeds
with an empty replay list and only refreshes activity; if `Disconnected` with
`now < grace_until`, it becomes `Connected` and returns the full pending list
(which stays in ascending seq order, being returned as-is); if the grace
window has passed or the status is `Expired`, it fails and leaves the
connection unchanged.  The two concrete conjuncts are the spec's scenarios:
three sends then disconnect/reconnect within grace replays exactly those
three messages in ascending order, and after `acknowledge(2)` only the
message with seq 3 is replayed. -/
theorem C3_reconnect_contract :
    (∀ (c : Connection) (now : Nat), c.status = ConnectionStatus.connected →
      c.reconnect now = (Except.ok [], { c with last_activity := now })) ∧
    (∀ (c : Connection) (now s g : Nat),
      c.status = ConnectionStatus.disconnected s g → now < g →
      c.reconnect now = (Except.ok c.pending_messages,
        { c with status := ConnectionStatus.connected,
                 last_activity := now, last_heartbeat := now })) ∧
    (∀ (c : Connection) (now s g : Nat),
      c.status = ConnectionStatus.disconnected s g → g ≤ now →
      c.reconnect now = (Except.error "Grace period expired", c)) ∧
    (∀ (c : Connection) (now : Nat), c.status = ConnectionStatus.expired →
      c.reconnect now = (Except.error "Connection expired", c)) ∧
    (connC3.reconnect 2).1 = Except.ok
      [{ seq := 1, message := "m1", sent_at := 0 },
       { seq := 2, message := "m2", sent_at := 0 },
       { seq := 3, message := "m3", sent_at := 0 }] ∧
    (((connC3base.acknowledge 2).disconnect_with_grace 60 1).reconnect 2).1 = Except.ok
      [{ seq := 3, message := "m3", sent_at := 0 }] := by
  refine ⟨?_, ?_, ?_, ?_, ?_, ?_⟩
  · intro c now h; exact reconnect_connected h
  · intro c now s g h hlt; exact reconnect_disconnected_in_grace h hlt
  · intro c now s g h hge; exact reconnect_disconnected_late h hge
  · intro c now h; exact reconnect_expired h
  · rfl
  · rfl

/-- Witness for C3: the disconnected-within-grace case at the concrete
three-send connection. -/
theorem C3_reconnect_contract_witness :
    connC3.reconnect 2 = (Except.ok connC3.pending_messages,
      { connC3 with status := ConnectionStatus.connected,
                    last_activity := 2, last_heartbeat := 2 }) :=
  C3_reconnect_contract.2.1 connC3 2 1 61 rfl (by decide)

/-- Claim C9: after `disconnect_with_grace` with a zero-length grace period
at time `t`, at every time `now ≥ t` (monotonic clock) `is_expired` is true
and `reconnect` fails with the grace-expired error, leaving the connection
unchanged. -/
theorem C9_zero_grace (c : Connection) (t now : Nat) (h : t ≤ now) :
    (c.disconnect_with_grace 0 t).status.is_expired now = true ∧
    (c.disconnect_with_grace 0 t).reconnect now
      = (Except.error "Grace period expired", c.disconnect_with_grace 0 t) := by
  constructor
  · simp [Connection.disconnect_with_grace, ConnectionStatus.is_expired, h]
  · exact reconnect_disconnected_late rfl (by simpa using h)

/-- Witness for C9 at a fresh connection, disconnecting at time 0 and
probing at time 0. -/
theorem C9_zero_grace_witness :
    (connW.disconnect_with_grace 0 0).status.is_expired 0 = true ∧
    (connW.disconnect_with_grace 0 0).reconnect 0
      = (Except.error "Grace period expired", connW.disconnect_with_grace 0 0) :=
  C9_zero_grace connW 0 0 (Nat.le_refl 0)

/-- Claim C10: a successful reconnect from `Disconnected` within grace
returns the replay buffer without consuming it: the post-state is exactly
the pre-state with `status := Connected` and refreshed `last_activity` and
`last_heartbeat`; `pending_messages`, `send_seq`, `ack_seq`, the identity
fields and `session_token` are untouched. -/
theorem C10_reconnect_frame (c : Connection) (now s g : Nat)
    (hst : c.status = ConnectionStatus.disconnected s g) (hlt : now < g) :
    (c.reconnect now).1 = Except.ok c.pending_messages ∧
    (c.reconnect now).2 = { c with status := ConnectionStatus.connected,
                                   last_activity := now, last_heartbeat := now } := by
  rw [reconnect_disconnected_in_grace hst hlt]
  exact ⟨rfl, rfl⟩

/-- Witness for C10 at the concrete three-send connection. -/
theorem C10_reconnect_frame_witness :
    (connC3.reconnect 2).1 = Except.ok connC3.pending_messages ∧
    (connC3.reconnect 2).2 = { connC3 with status := ConnectionStatus.connected,
                                           last_activity := 2, last_heartbeat := 2 } :=
  C10_reconnect_frame connC3 2 1 61 rfl (by decide)

/-- Claim C4: `transition` is total — for every location and event it
returns exactly one of a new location or a rejection; every rejection
carries the state it was rejected from, the event, and one of the fixed
reason strings; and a rejected `apply_mut` leaves the stored location
exactly as it was. -/
theorem C4_transition_total_and_safe (s : PlayerState) (e : PlayerEvent) :
    ((∃ loc, s.transition e = Except.ok loc) ∨
      (∃ err, s.transition e = Except.error err ∧ err.from_loc = s.location ∧
        err.event = e ∧ err.reason ∈ transitionReasons)) ∧
    ¬ ((∃ loc, s.transition e = Except.ok loc) ∧
       (∃ err, s.transition e = Except.error err)) ∧
    (∀ err, (s.apply_mut e).1 = Except.error err → (s.apply_mut e).2 = s) := by
  refine ⟨?_, ?_, ?_⟩
  · obtain ⟨loc⟩ := s
    cases loc <;> cases e <;>
      first
        | exact Or.inl ⟨_, rfl⟩
        | exact Or.inr ⟨_, rfl, rfl, rfl, by simp [transitionReasons]⟩
  · rintro ⟨⟨loc, hok⟩, ⟨err, herr⟩⟩
    exact Except.noConfusion (hok.symm.trans herr)
  · intro err h
    unfold PlayerState.apply_mut at h ⊢
    revert h
    cases s.transition e with
    | ok loc => intro h; exact Except.noConfusion h
    | error e2 => intro h; rfl

/-- Witness for C4: a rejected `apply_mut` (`Disconnect` while already
`Disconnected`) leaves the state unchanged. -/
theorem C4_witness :
    ((PlayerState.atLoc PlayerLocation.disconnected).apply_mut PlayerEvent.disconnect).2
      = PlayerState.atLoc PlayerLocation.disconnected :=
  (C4_transition_total_and_safe (PlayerState.atLoc PlayerLocation.disconnected)
      PlayerEvent.disconnect).2.2
    { from_loc := PlayerLocation.disconnected, event := PlayerEvent.disconnect,
      reason := "Already disconnected" } rfl

/-- Claim C8 names the intended behaviour, but the code's
`ConnectionManager::disconnect` takes the `if let Some` path and silently
does nothing for an unknown player id: it returns unit, not a typed
failure, and the registry is left unchanged with no error reported. -/
theorem C8_disconnect_silent_noop :
    ConnectionManager.new.disconnect 1 0 = ConnectionManager.new ∧
    ConnectionManager.new.get 1 = none :=
  ⟨rfl, rfl⟩

theorem reconnect_frame_fields (c : Connection) (now : Nat) :
    (c.reconnect now).2.send_seq = c.send_seq ∧
    (c.reconnect now).2.ack_seq = c.ack_seq ∧
    (c.reconnect now).2.pending_messages = c.pending_messages := by
  unfold Connection.reconnect
  cases c.status with
  | connected => exact ⟨rfl, rfl, rfl⟩
  | disconnected s g =>
      by_cases h : now < g
      · simp [h]
      · simp [h]
  | expired => exact ⟨rfl, rfl, rfl⟩

theorem inv_of_fields {c c2 : Connection}
    (h1 : c2.pending_messages = c.pending_messages)
    (h2 : c2.ack_seq = c.ack_seq) (h3 : c2.send_seq = c.send_seq)
    (h : ConnInvariant c) : ConnInvariant c2 := by
  obtain ⟨hpw, hmem, hle⟩ := h
  refine ⟨by rw [h1]; exact hpw, ?_, by rw [h2, h3]; exact hle⟩
  intro m hm
  rw [h1] at hm
  rw [h2, h3]
  exact hmem m hm

theorem applyOp_preserves {c : Connection} {op : ConnOp}
    (h : ConnInvariant c) (hv : validAckOp c op) : ConnInvariant (c.applyOp op) := by
  obtain ⟨hpw, hmem, hle⟩ := h
  cases op with
  | send message now =>
      refine ⟨?_, ?_, ?_⟩
      · show (c.pending_messages ++
            [({ seq := c.send_seq + 1, message := message, sent_at := now } :
              PendingMessage)]).Pairwise _
        rw [List.pairwise_append]
        refine ⟨hpw, List.pairwise_singleton _ _, ?_⟩
        intro a ha b hb
        rw [List.mem_singleton] at hb
        subst hb
        exact Nat.lt_succ_of_le (hmem a ha).2
      · intro m hm
        show c.ack_seq < m.seq ∧ m.seq ≤ c.send_seq + 1
        rw [show (c.applyOp (ConnOp.send message now)).pending_messages
            = c.pending_messages ++
              [({ seq := c.send_seq + 1, message := message, sent_at := now } :
                PendingMessage)] from rfl,
          List.mem_append, List.mem_singleton] at hm
        cases hm with
        | inl h1 => exact ⟨(hmem m h1).1, Nat.le_succ_of_le (hmem m h1).2⟩
        | inr h1 => subst h1; exact ⟨Nat.lt_succ_of_le hle, Nat.le_refl _⟩
      · exact Nat.le_succ_of_le hle
  | acknowledge ack =>
      refine ⟨?_, ?_, ?_⟩
      · exact hpw.sublist (List.filter_sublist _)
      · intro m hm
        show ack < m.seq ∧ m.seq ≤ c.send_seq
        rw [show (c.applyOp (ConnOp.acknowledge ack)).pending_messages
            = c.pending_messages.filter (fun m => decide (ack < m.seq)) from rfl,
          List.mem_filter] at hm
        exact ⟨of_decide_eq_true hm.2, (hmem m hm.1).2⟩
      · exact hv
  | reconnect now =>
      exact inv_of_fields (reconnect_frame_fields c now).2.2
        (reconnect_frame_fields c now).2.1 (reconnect_frame_fields c now).1 ⟨hpw, hmem, hle⟩
  | heartbeat now => exact ⟨hpw, hmem, hle⟩
  | touch now => exact ⟨hpw, hmem, hle⟩
  | disconnect_with_grace grace_period now => exact ⟨hpw, hmem, hle⟩
  | expire =>
      refine ⟨List.Pairwise.nil, ?_, hle⟩
      intro m hm
      exact absurd hm (List.not_mem_nil m)

theorem applyOps_inv {c : Connection} {ops : List ConnOp}
    (h : ConnInvariant c) (hv : ValidOps c ops) : ConnInvariant (c.applyOps ops) := by
  induction ops generalizing c with
  | nil => exact h
  | cons op rest ih => exact ih (applyOp_preserves h hv.1) hv.2

theorem applyOp_send_seq_le (c : Connection) (op : ConnOp) :
    c.send_seq ≤ (c.applyOp op).send_seq := by
  cases op with
  | send message now => exact Nat.le_succ _
  | reconnect now => exact Nat.le_of_eq (reconnect_frame_fields c now).1.symm
  | acknowledge ack => exact Nat.le_refl _
  | heartbeat now => exact Nat.le_refl _
  | touch now => exact Nat.le_refl _
  | disconnect_with_grace grace_period now => exact Nat.le_refl _
  | expire => exact Nat.le_refl _

theorem applyOps_send_seq_le (c : Connection) (ops : List ConnOp) :
    c.send_seq ≤ (c.applyOps ops).send_seq := by
  induction ops generalizing c with
  | nil => exact Nat.le_refl _
  | cons op rest ih => exact Nat.le_trans (applyOp_send_seq_le c op) (ih (c.applyOp op))

theorem sendResults_range (ops : List ConnOp) : ∀ c : Connection,
    sendResults c ops = List.range' (c.send_seq + 1) (countSends ops) := by
  induction ops with
  | nil => intro c; rfl
  | cons op rest ih =>
      intro c
      cases op with
      | send message now =>
          show (c.send message now).1 ::
              sendResults (c.applyOp (ConnOp.send message now)) rest
            = List.range' (c.send_seq + 1) (countSends rest + 1)
          rw [ih, List.range'_succ]
          rfl
      | acknowledge ack =>
          show sendResults (c.applyOp (ConnOp.acknowledge ack)) rest
            = List.range' (c.send_seq + 1) (countSends rest)
          rw [ih]
          rfl
      | reconnect now =>
          show sendResults (c.applyOp (ConnOp.reconnect now)) rest
            = List.range' (c.send_seq + 1) (countSends rest)
          rw [ih]
          rw [show (c.applyOp (ConnOp.reconnect now)).send_seq
              = (c.reconnect now).2.send_seq from rfl,
            (reconnect_frame_fields c now).1]
      | heartbeat now =>
          show sendResults (c.applyOp (ConnOp.heartbeat now)) rest
            = List.range' (c.send_seq + 1) (countSends rest)
          rw [ih]
          rfl
      | touch now =>
          show sendResults (c.applyOp (ConnOp.touch now)) rest
            = List.range' (c.send_seq + 1) (countSends rest)
          rw [ih]
          rfl
      | disconnect_with_grace grace_period now =>
          show sendResults (c.applyOp (ConnOp.disconnect_with_grace grace_period now)) rest
            = List.range' (c.send_seq + 1) (countSends rest)
          rw [ih]
          rfl
      | expire =>
          show sendResults (c.applyOp ConnOp.expire) rest
            = List.range' (c.send_seq + 1) (countSends rest)
          rw [ih]
          rfl

/-- Claim C5, as stated, is false: `acknowledge` with a sequence number
that was never minted breaks the `seq > ack_seq` invariant.  From a fresh
connection, `acknowledge(1)` then `send` leaves a pending message with
`seq = 1 = ack_seq`. -/
theorem C5_counterexample :
    ¬ (∀ m ∈ ((Connection.new 1 "10" "alice" none "tok" 0).applyOps
          [ConnOp.acknowledge 1, ConnOp.send "m1" 0]).pending_messages,
        ((Connection.new 1 "10" "alice" none "tok" 0).applyOps
          [ConnOp.acknowledge 1, ConnOp.send "m1" 0]).ack_seq < m.seq) := by
  intro h
  exact absurd (h { seq := 1, message := "m1", sent_at := 0 } (by decide)) (by decide)

/-- Claim C5 (amended): for every operation sequence in which each
`acknowledge` argument is at most the `send_seq` current when it is applied
(acks only reference sequence numbers actually minted), starting from any
connection satisfying the data invariant: `send_seq` never decreases, the
invariant (pending sorted strictly ascending by seq, every pending seq in
`(ack_seq, send_seq]`, `ack_seq ≤ send_seq`) is preserved, and the sequence
numbers returned by the `send` calls are exactly
`send_seq+1, send_seq+2, …` — in particular strictly increasing and, from a
fresh connection, starting at 1. -/
theorem C5_connection_invariants (c : Connection) (ops : List ConnOp)
    (hinv : ConnInvariant c) (hv : ValidOps c ops) :
    c.send_seq ≤ (c.applyOps ops).send_seq ∧
    ConnInvariant (c.applyOps ops) ∧
    sendResults c ops = List.range' (c.send_seq + 1) (countSends ops) :=
  ⟨applyOps_send_seq_le c ops, applyOps_inv hinv hv, sendResults_range ops c⟩

/-- Witness for C5: three sends and an in-range ack from a fresh
connection. -/
theorem C5_connection_invariants_witness :
    connW.send_seq ≤ (connW.applyOps opsW).send_seq ∧
    ConnInvariant (connW.applyOps opsW) ∧
    sendResults connW opsW = List.range' (connW.send_seq + 1) (countSends opsW) :=
  C5_connection_invariants connW opsW
    ⟨List.Pairwise.nil, fun m hm => absurd hm (List.not_mem_nil m), Nat.le_refl 0⟩
    ⟨trivial, ⟨trivial, ⟨trivial, ⟨by show (2 : Nat) ≤ 3; decide, trivial⟩⟩⟩⟩

theorem mapFind_cons {κ β : Type} [DecidableEq κ] (a : κ) (b : β) (rest : List (κ × β))
    (k : κ) : mapFind ((a, b) :: rest) k = if a = k then some b else mapFind rest k := rfl

theorem mapFind_erase {κ β : Type} [DecidableEq κ] (l : List (κ × β)) (k k2 : κ) :
    mapFind (mapErase l k) k2 = if k2 = k then none else mapFind l k2 := by
  induction l with
  | nil =>
      show (none : Option β) = if k2 = k then none else none
      split <;> rfl
  | cons p rest ih =>
      obtain ⟨a, b⟩ := p
      show mapFind (List.filter (fun q => decide (q.1 ≠ k)) ((a, b) :: rest)) k2 = _
      rw [List.filter_cons]
      by_cases hak : a = k <;> by_cases h2 : k2 = k <;> by_cases hak2 : a = k2 <;>
        simp_all [mapFind_cons, mapErase]

theorem mapFind_insert {κ β : Type} [DecidableEq κ] (l : List (κ × β)) (k k2 : κ) (v : β) :
    mapFind (mapInsert l k v) k2 = if k2 = k then some v else mapFind l k2 := by
  rw [show mapInsert l k v = (k, v) :: mapErase l k from rfl, mapFind_cons, mapFind_erase]
  by_cases h : k2 = k
  · simp [h]
  · rw [if_neg (fun hc => h hc.symm), if_neg h, if_neg h]

theorem mem_mapErase {κ β : Type} [DecidableEq κ] {l : List (κ × β)} {k : κ} {p : κ × β} :
    p ∈ mapErase l k ↔ p ∈ l ∧ p.1 ≠ k := by
  simp [mapErase, List.mem_filter]

theorem mapErase_eq_self_of_find_none {κ β : Type} [DecidableEq κ] {l : List (κ × β)}
    {k : κ} (h : mapFind l k = none) : mapErase l k = l := by
  induction l with
  | nil => rfl
  | cons p rest ih =>
      obtain ⟨a, b⟩ := p
      rw [mapFind_cons] at h
      by_cases hak : a = k
      · rw [if_pos hak] at h; exact Option.noConfusion h
      · rw [if_neg hak] at h
        show List.filter (fun q => decide (q.1 ≠ k)) ((a, b) :: rest) = (a, b) :: rest
        rw [List.filter_cons, if_pos (by simp [hak]),
          show List.filter (fun q => decide (q.1 ≠ k)) rest = mapErase rest k from rfl, ih h]

theorem mapFind_eq_none_iff {κ β : Type} [DecidableEq κ] {l : List (κ × β)} {k : κ} :
    mapFind l k = none ↔ ∀ p ∈ l, p.1 ≠ k := by
  induction l with
  | nil => simp [mapFind]
  | cons p rest ih =>
      obtain ⟨a, b⟩ := p
      rw [mapFind_cons]
      by_cases hak : a = k
      · simp [hak]
      · simp [hak, ih]

theorem nodup_keys_mapErase {κ β : Type} [DecidableEq κ] {l : List (κ × β)} (k : κ)
    (h : (l.map Prod.fst).Nodup) : ((mapErase l k).map Prod.fst).Nodup :=
  h.sublist (List.Sublist.map Prod.fst (List.filter_sublist l))

theorem mapFind_eq_some_of_mem {κ β : Type} [DecidableEq κ] {l : List (κ × β)} {k : κ}
    {v : β} (hnd : (l.map Prod.fst).Nodup) (h : (k, v) ∈ l) : mapFind l k = some v := by
  induction l with
  | nil => exact absurd h (List.not_mem_nil _)
  | cons p rest ih =>
      obtain ⟨a, b⟩ := p
      rw [List.map_cons, List.nodup_cons] at hnd
      rw [List.mem_cons] at h
      rw [mapFind_cons]
      cases h with
      | inl he =>
          injection he with h1 h2
          subst h1; subst h2
          rw [if_pos rfl]
      | inr hm =>
          by_cases hak : a = k
          · subst hak
            exact absurd (List.mem_map_of_mem Prod.fst hm) hnd.1
          · rw [if_neg hak]
            exact ih hnd.2 hm

theorem mem_of_mapFind_eq_some {κ β : Type} [DecidableEq κ] {l : List (κ × β)} {k : κ}
    {v : β} (h : mapFind l k = some v) : (k, v) ∈ l := by
  induction l with
  | nil => exact Option.noConfusion h
  | cons p rest ih =>
      obtain ⟨a, b⟩ := p
      rw [mapFind_cons] at h
      by_cases hak : a = k
      · rw [if_pos hak] at h
        subst hak
        injection h with hbv
        subst hbv
        exact List.mem_cons_self _ _
      · rw [if_neg hak] at h
        exact List.mem_cons_of_mem _ (ih h)

theorem key_unique {κ β : Type} [DecidableEq κ] {l : List (κ × β)} {k : κ} {v w : β}
    (hnd : (l.map Prod.fst).Nodup) (h1 : (k, v) ∈ l) (h2 : (k, w) ∈ l) : v = w := by
  have hv := mapFind_eq_some_of_mem hnd h1
  have hw := mapFind_eq_some_of_mem hnd h2
  rw [hv] at hw
  exact Option.some.inj hw

theorem removeStep_fst (st : List (Int × Connection) × List (String × Int)) (pid : Int) :
    (removeStep st pid).1 = mapErase st.1 pid := by
  unfold removeStep
  cases h : mapFind st.1 pid with
  | some c => rfl
  | none => exact (mapErase_eq_self_of_find_none h).symm

theorem removeStep_snd_none {st : List (Int × Connection) × List (String × Int)} {pid : Int}
    {tok : String} (h : mapFind st.2 tok = none) :
    mapFind (removeStep st pid).2 tok = none := by
  unfold removeStep
  cases hf : mapFind st.1 pid with
  | some c =>
      show mapFind (mapErase st.2 c.session_token) tok = none
      rw [mapFind_erase]
      split
      · rfl
      · exact h
  | none => exact h

theorem fold_removeStep_mem (l : List Int) :
    ∀ (st : List (Int × Connection) × List (String × Int)) (p : Int) (c : Connection),
    (p, c) ∈ (l.foldl removeStep st).1 ↔ (p, c) ∈ st.1 ∧ p ∉ l := by
  induction l with
  | nil => intro st p c; simp
  | cons q rest ih =>
      intro st p c
      rw [List.foldl_cons, ih, removeStep_fst, mem_mapErase]
      constructor
      · rintro ⟨⟨hm, hne⟩, hnr⟩
        refine ⟨hm, ?_⟩
        rw [List.mem_cons]
        rintro (h | h)
        · exact hne h
        · exact hnr h
      · rintro ⟨hm, hn⟩
        rw [List.mem_cons] at hn
        push_neg at hn
        exact ⟨⟨hm, hn.1⟩, hn.2⟩

theorem fold_removeStep_sessions_none (l : List Int) :
    ∀ (st : List (Int × Connection) × List (String × Int)) (tok : String),
      mapFind st.2 tok = none → mapFind (l.foldl removeStep st).2 tok = none := by
  induction l with
  | nil => intro st tok h; exact h
  | cons q rest ih =>
      intro st tok h
      rw [List.foldl_cons]
      exact ih _ tok (removeStep_snd_none h)

theorem fold_removeStep_token_removed (l : List Int) :
    ∀ (st : List (Int × Connection) × List (String × Int)) (pid : Int) (c : Connection),
      (st.1.map Prod.fst).Nodup → (pid, c) ∈ st.1 → pid ∈ l →
      mapFind (l.foldl removeStep st).2 c.session_token = none := by
  induction l with
  | nil => intro st pid c _ _ h; exact absurd h (List.not_mem_nil _)
  | cons q rest ih =>
      intro st pid c hnd hm hl
      rw [List.foldl_cons]
      by_cases hpq : pid = q
      · subst hpq
        have hf : mapFind st.1 pid = some c := mapFind_eq_some_of_mem hnd hm
        apply fold_removeStep_sessions_none
        rw [show removeStep st pid = (mapErase st.1 pid, mapErase st.2 c.session_token) from by
          unfold removeStep; rw [hf]]
        show mapFind (mapErase st.2 c.session_token) c.session_token = none
        rw [mapFind_erase, if_pos rfl]
      · have hm2 : (pid, c) ∈ (removeStep st q).1 := by
          rw [removeStep_fst]
          exact mem_mapErase.mpr ⟨hm, hpq⟩
        have hnd2 : ((removeStep st q).1.map Prod.fst).Nodup := by
          rw [removeStep_fst]
          exact nodup_keys_mapErase q hnd
        have hl2 : pid ∈ rest := by
          rcases List.mem_cons.mp hl with h | h
          · exact absurd h hpq
          · exact h
        exact ih _ pid c hnd2 hm2 hl2

theorem staleMut_keys (l : List (Int × Connection)) (now : Nat) :
    (l.map (staleMut now)).map Prod.fst = l.map Prod.fst := by
  rw [List.map_map]
  apply List.map_congr_left
  intro p _
  show (staleMut now p).1 = p.1
  unfold staleMut
  split <;> rfl

/-- Claim C6: `expire_stale` returns exactly the player ids of the tracked
connections whose status is expired or whose heartbeat has timed out;
connections matching neither condition survive untouched; every collected
id is removed from the player-id index and its connection's token from the
session index; afterwards no tracked connection has `Expired` status; and
`expire` itself sets `Expired` status and clears `pending_messages`.  The
`Nodup` hypothesis is the `HashMap` representation invariant (one entry per
player id) of the association-list model. -/
theorem C6_expire_stale (m : ConnectionManager) (now : Nat)
    (hnd : (m.connections.map Prod.fst).Nodup) :
    (m.expire_stale now).1 = (m.connections.filter
        (fun p => p.2.status.is_expired now || p.2.is_heartbeat_timeout now)).map Prod.fst ∧
    (∀ pid c, (pid, c) ∈ m.connections →
      (c.status.is_expired now || c.is_heartbeat_timeout now) = false →
      (pid, c) ∈ (m.expire_stale now).2.connections) ∧
    (∀ pid, pid ∈ (m.expire_stale now).1 →
      mapFind (m.expire_stale now).2.connections pid = none) ∧
    (∀ pid c, (pid, c) ∈ m.connections →
      (c.status.is_expired now || c.is_heartbeat_timeout now) = true →
      mapFind (m.expire_stale now).2.sessions c.session_token = none) ∧
    (∀ pid c, (pid, c) ∈ (m.expire_stale now).2.connections →
      c.status ≠ ConnectionStatus.expired) ∧
    (∀ c : Connection, c.expire.pending_messages = [] ∧
      c.expire.status = ConnectionStatus.expired) := by
  have hnd1 : ((m.connections.map (staleMut now)).map Prod.fst).Nodup := by
    rw [staleMut_keys]; exact hnd
  refine ⟨rfl, ?_, ?_, ?_, ?_, fun c => ⟨rfl, rfl⟩⟩
  · intro pid c hm hcond
    have hm1 : (pid, c) ∈ m.connections.map (staleMut now) :=
      List.mem_map.mpr ⟨(pid, c), hm, by
        show staleMut now (pid, c) = (pid, c)
        unfold staleMut
        rw [show staleCond now (pid, c) = false from hcond]
        rfl⟩
    have hpe : pid ∉ (m.expire_stale now).1 := by
      intro hin
      obtain ⟨p, hpmem, hpfst⟩ := List.mem_map.mp hin
      obtain ⟨hpconn, hpcond⟩ := List.mem_filter.mp hpmem
      obtain ⟨p1, p2⟩ := p
      cases hpfst
      have hp2 : p2 = c := key_unique hnd hpconn hm
      subst hp2
      have hff : staleCond now (p1, p2) = false := hcond
      rw [hff] at hpcond
      exact Bool.noConfusion hpcond
    exact (fold_removeStep_mem (m.expire_stale now).1
      (m.connections.map (staleMut now), m.sessions) pid c).mpr ⟨hm1, hpe⟩
  · intro pid hpid
    apply mapFind_eq_none_iff.mpr
    intro p hp
    obtain ⟨p1, pc⟩ := p
    have hmem := (fold_removeStep_mem (m.expire_stale now).1
      (m.connections.map (staleMut now), m.sessions) p1 pc).mp hp
    intro hc
    rw [show (p1, pc).1 = p1 from rfl] at hc
    subst hc
    exact hmem.2 hpid
  · intro pid c hm hcond
    have hm1 : (pid, c.expire) ∈ m.connections.map (staleMut now) :=
      List.mem_map.mpr ⟨(pid, c), hm, by
        show staleMut now (pid, c) = (pid, c.expire)
        unfold staleMut
        rw [show staleCond now (pid, c) = true from hcond]
        rfl⟩
    have hpidE : pid ∈ (m.expire_stale now).1 :=
      List.mem_map.mpr ⟨(pid, c),
        List.mem_filter.mpr ⟨hm, show staleCond now (pid, c) = true from hcond⟩, rfl⟩
    exact fold_removeStep_token_removed (m.expire_stale now).1
      (m.connections.map (staleMut now), m.sessions) pid c.expire hnd1 hm1 hpidE
  · intro pid c hmf
    obtain ⟨hm1, hnotE⟩ := (fold_removeStep_mem (m.expire_stale now).1
      (m.connections.map (staleMut now), m.sessions) pid c).mp hmf
    obtain ⟨⟨p1, p2⟩, hpm, hpeq⟩ := List.mem_map.mp hm1
    by_cases hcond : staleCond now (p1, p2)
    · exfalso
      apply hnotE
      have hpeq2 : (p1, p2.expire) = (pid, c) := by
        rw [show staleMut now (p1, p2) = (p1, p2.expire) from by
          unfold staleMut; rw [hcond]; rfl] at hpeq
        exact hpeq
      injection hpeq2 with hx hy
      subst hx
      exact List.mem_map.mpr ⟨(p1, p2), List.mem_filter.mpr ⟨hpm, hcond⟩, rfl⟩
    · have hpeq2 : (p1, p2) = (pid, c) := by
        rw [show staleMut now (p1, p2) = (p1, p2) from by
          unfold staleMut; rw [Bool.of_not_eq_true hcond]; rfl] at hpeq
        exact hpeq
      injection hpeq2 with hx hy
      subst hx; subst hy
      intro hstatus
      apply hcond
      show (p2.status.is_expired now || p2.is_heartbeat_timeout now) = true
      rw [hstatus]
      rfl

/-- Witness for C6: in the concrete registry with one expired and one live
connection, the expired player id 1 is collected and removed. -/
theorem C6_expire_stale_witness :
    mapFind (mgrC6.expire_stale 0).2.connections 1 = none :=
  (C6_expire_stale mgrC6 0 (by decide)).2.2.1 1 (by decide)

theorem consistent_unique_token {m : ConnectionManager} (hc : Consistent m) :
    ∀ pid c, mapFind m.connections pid = some c →
      mapFind m.sessions c.session_token = some pid ∧
      ∀ tok, mapFind m.sessions tok = some pid → tok = c.session_token := by
  intro pid c hfind
  constructor
  · exact (hc c.session_token pid).mpr ⟨c, hfind, rfl⟩
  · intro tok htok
    obtain ⟨c2, hf2, ht2⟩ := (hc tok pid).mp htok
    rw [hfind] at hf2
    exact (((congrArg Connection.session_token (Option.some.inj hf2)).trans ht2)).symm

theorem add_preserves_consistent {m : ConnectionManager} {conn : Connection}
    (hc : Consistent m)
    (h1 : mapFind m.connections conn.player_id = none)
    (h2 : mapFind m.sessions conn.session_token = none) :
    Consistent (m.add conn) := by
  intro tok pid
  show mapFind (mapInsert m.sessions conn.session_token conn.player_id) tok = some pid ↔
    ∃ c, mapFind (mapInsert m.connections conn.player_id conn) pid = some c ∧
      c.session_token = tok
  rw [mapFind_insert, mapFind_insert]
  by_cases htok : tok = conn.session_token
  · rw [if_pos htok]
    by_cases hpid : pid = conn.player_id
    · rw [if_pos hpid]
      constructor
      · intro _; exact ⟨conn, rfl, htok.symm⟩
      · intro _; rw [hpid]
    · rw [if_neg hpid]
      constructor
      · intro hcon; exact absurd (Option.some.inj hcon).symm hpid
      · rintro ⟨c, hfc, htc⟩
        have hs := (hc tok pid).mpr ⟨c, hfc, htc⟩
        rw [htok, h2] at hs
        exact Option.noConfusion hs
  · rw [if_neg htok]
    by_cases hpid : pid = conn.player_id
    · rw [if_pos hpid]
      constructor
      · intro hfs
        obtain ⟨c, hfc, htc⟩ := (hc tok pid).mp hfs
        rw [hpid, h1] at hfc
        exact Option.noConfusion hfc
      · rintro ⟨c, hceq, htc⟩
        exact absurd ((congrArg Connection.session_token (Option.some.inj hceq)).trans htc)
          (fun he => htok he.symm)
    · rw [if_neg hpid]
      exact hc tok pid

theorem removeStep_preserves_pair {conns : List (Int × Connection)}
    {sess : List (String × Int)} (hc : PairConsistent conns sess) (pid : Int) :
    PairConsistent (removeStep (conns, sess) pid).1 (removeStep (conns, sess) pid).2 := by
  cases hf : mapFind conns pid with
  | none =>
      rw [show removeStep (conns, sess) pid = (conns, sess) from by
        unfold removeStep; rw [show mapFind (conns, sess).1 pid = none from hf]]
      exact hc
  | some c0 =>
      rw [show removeStep (conns, sess) pid
          = (mapErase conns pid, mapErase sess c0.session_token) from by
        unfold removeStep; rw [show mapFind (conns, sess).1 pid = some c0 from hf]]
      intro tok p
      show mapFind (mapErase sess c0.session_token) tok = some p ↔
        ∃ c, mapFind (mapErase conns pid) p = some c ∧ c.session_token = tok
      rw [mapFind_erase]
      by_cases htok : tok = c0.session_token
      · rw [if_pos htok]
        constructor
        · intro hcon; exact Option.noConfusion hcon
        · rintro ⟨c, hfc, htc⟩
          rw [mapFind_erase] at hfc
          by_cases hp : p = pid
          · rw [if_pos hp] at hfc; exact Option.noConfusion hfc
          · rw [if_neg hp] at hfc
            exfalso
            have hs1 := (hc tok p).mpr ⟨c, hfc, htc⟩
            have hs2 := (hc c0.session_token pid).mpr ⟨c0, hf, rfl⟩
            rw [htok] at hs1
            rw [hs1] at hs2
            exact hp (Option.some.inj hs2)
      · rw [if_neg htok]
        constructor
        · intro hfs
          obtain ⟨c, hfc, htc⟩ := (hc tok p).mp hfs
          by_cases hp : p = pid
          · exfalso
            subst hp
            rw [hf] at hfc
            exact htok (((congrArg Connection.session_token
              (Option.some.inj hfc)).trans htc).symm)
          · exact ⟨c, by rw [mapFind_erase, if_neg hp]; exact hfc, htc⟩
        · rintro ⟨c, hfc, htc⟩
          rw [mapFind_erase] at hfc
          by_cases hp : p = pid
          · rw [if_pos hp] at hfc; exact Option.noConfusion hfc
          · rw [if_neg hp] at hfc
            exact (hc tok p).mpr ⟨c, hfc, htc⟩

theorem fold_preserves_pair (l : List Int) :
    ∀ st : List (Int × Connection) × List (String × Int),
      PairConsistent st.1 st.2 →
      PairConsistent (l.foldl removeStep st).1 (l.foldl removeStep st).2 := by
  induction l with
  | nil => intro st h; exact h
  | cons q rest ih =>
      intro st h
      obtain ⟨conns, sess⟩ := st
      rw [List.foldl_cons]
      exact ih _ (removeStep_preserves_pair h q)

theorem mapFind_map_staleMut (l : List (Int × Connection)) (now : Nat) (pid : Int) :
    mapFind (l.map (staleMut now)) pid
      = Option.map (fun c => if staleCond now (pid, c) then c.expire else c)
          (mapFind l pid) := by
  induction l with
  | nil => rfl
  | cons p rest ih =>
      obtain ⟨a, b⟩ := p
      by_cases hab : a = pid <;> by_cases hcnd : staleCond now (a, b) <;>
        simp_all [staleMut, mapFind_cons, staleCond]

theorem pass1_preserves (m : ConnectionManager) (now : Nat) (hc : Consistent m) :
    PairConsistent (m.connections.map (staleMut now)) m.sessions := by
  intro tok pid
  constructor
  · intro hfs
    obtain ⟨c, hfc, htc⟩ := (hc tok pid).mp hfs
    refine ⟨if staleCond now (pid, c) then c.expire else c, ?_, ?_⟩
    · rw [mapFind_map_staleMut, hfc]
      rfl
    · split <;> exact htc
  · rintro ⟨c, hfc, htc⟩
    rw [mapFind_map_staleMut] at hfc
    cases hf0 : mapFind m.connections pid with
    | none => rw [hf0] at hfc; exact Option.noConfusion hfc
    | some c0 =>
        rw [hf0] at hfc
        have hceq : c = if staleCond now (pid, c0) then c0.expire else c0 :=
          (Option.some.inj hfc).symm
        have htok0 : c0.session_token = tok := by
          rw [hceq] at htc
          revert htc
          split <;> intro htc <;> exact htc
        exact (hc tok pid).mpr ⟨c0, hf0, htok0⟩

theorem applyMgrOp_preserves {m : ConnectionManager} {op : MgrOp}
    (hc : Consistent m) (hv : validAddOp m op) : Consistent (m.applyMgrOp op) := by
  cases op with
  | add conn => exact add_preserves_consistent hc hv.1 hv.2
  | remove pid =>
      show Consistent (m.remove pid).2
      cases hf : mapFind m.connections pid with
      | some conn =>
          have heq : (m.remove pid).2
              = { connections := (removeStep (m.connections, m.sessions) pid).1,
                  sessions := (removeStep (m.connections, m.sessions) pid).2 } := by
            unfold ConnectionManager.remove removeStep
            rw [hf]
          rw [heq]
          exact removeStep_preserves_pair hc pid
      | none =>
          have heq : (m.remove pid).2 = m := by
            unfold ConnectionManager.remove
            rw [hf]
          rw [heq]
          exact hc
  | expire_stale now =>
      show PairConsistent (m.expire_stale now).2.connections (m.expire_stale now).2.sessions
      exact fold_preserves_pair ((m.connections.filter (staleCond now)).map Prod.fst)
        (m.connections.map (staleMut now), m.sessions) (pass1_preserves m now hc)

theorem applyMgrOps_preserves {m : ConnectionManager} {ops : List MgrOp}
    (hc : Consistent m) (hv : ValidMgrOps m ops) : Consistent (m.applyMgrOps ops) := by
  induction ops generalizing m with
  | nil => exact hc
  | cons op rest ih => exact ih (applyMgrOp_preserves hc hv.1) hv.2

theorem consistent_new : Consistent ConnectionManager.new := by
  intro tok pid
  constructor
  · intro h; exact Option.noConfusion h
  · rintro ⟨c, hcf, -⟩; exact Option.noConfusion hcf

/-- Claim C7, as stated, is false: re-adding player 1 with a fresh session
token leaves the stale entry `t1 ↦ 1` in the session index while the stored
connection now carries token `t2`, so the iff between the two indexes is
broken. -/
theorem C7_counterexample :
    mapFind mgrC7.sessions "t1" = some 1 ∧
    mapFind mgrC7.connections 1 = some (Connection.new 1 "10" "alice" none "t2" 0) ∧
    ¬ Consistent mgrC7 := by
  refine ⟨rfl, rfl, fun h => ?_⟩
  obtain ⟨c, hc1, ht⟩ := (h "t1" 1).mp rfl
  rw [show mapFind mgrC7.connections 1
      = some (Connection.new 1 "10" "alice" none "t2" 0) from rfl] at hc1
  rw [← Option.some.inj hc1] at ht
  exact absurd ht (by decide)

/-- Claim C7 (amended): for every sequence of `add`/`remove`/`expire_stale`
operations in which each `add` uses a player id and a session token that are
not currently indexed, starting from a consistent registry, the two indexes
stay consistent (`sessions tok = some pid` iff the connection stored at
`pid` carries token `tok`), and hence every tracked connection is reachable
by exactly one session token.  Without the freshness condition on `add`,
re-adding a tracked player id (or reusing a token) breaks consistency. -/
theorem C7_index_consistency (m : ConnectionManager) (ops : List MgrOp)
    (hc : Consistent m) (hv : ValidMgrOps m ops) :
    Consistent (m.applyMgrOps ops) ∧
    ∀ pid c, mapFind (m.applyMgrOps ops).connections pid = some c →
      mapFind (m.applyMgrOps ops).sessions c.session_token = some pid ∧
      ∀ tok, mapFind (m.applyMgrOps ops).sessions tok = some pid →
        tok = c.session_token :=
  ⟨applyMgrOps_preserves hc hv, consistent_unique_token (applyMgrOps_preserves hc hv)⟩

/-- Witness for C7: a fresh add into the empty registry, whose token then
maps back to its player id. -/
theorem C7_index_consistency_witness :
    mapFind (ConnectionManager.new.applyMgrOps [MgrOp.add connW]).sessions
        connW.session_token = some connW.player_id :=
  ((C7_index_consistency ConnectionManager.new [MgrOp.add connW] consistent_new
      ⟨⟨rfl, rfl⟩, trivial⟩).2 connW.player_id connW rfl).1

end Runecast
